import Mathlib

/-!
Verification development for the news_analyze scrape-extract-dedupe pipeline.

Shallow embedding of the Python sources:
 * `src/news_scraper/scraper.py` (filter_existing_links, NewsScraper methods)
 * `src/database/operations.py` (save_scraper_results_to_db)
 * `src/scripts/generate_embeddings.py` (generate_embeddings_for_articles)
 * `src/scrapers/setn_scraper.py`, `src/scrapers/chinatimes_scraper.py`

External boundaries (HTTP, the language model, `json.loads`, BeautifulSoup,
`datetime.strptime`, the SQL engine, the embedding service) are passed in as
explicit oracle parameters; everything written in the repository itself is
translated into executable Lean definitions.
-/

namespace NewsAnalyze

/-! ## Python string primitives used by the sources -/

/-- Python `str.strip()`: drop leading/trailing whitespace. -/
def pyStrip (s : String) : String :=
  String.mk (((s.data.dropWhile Char.isWhitespace).reverse.dropWhile
    Char.isWhitespace).reverse)

/-- Does `s` start with the literal pattern `pat`? -/
def litAt : List Char → List Char → Bool
  | [], _ => true
  | _ :: _, [] => false
  | p :: ps, c :: cs => (p == c) && litAt ps cs

/-- Helper for `pyFind`: first index `≥ i` at which `pat` occurs. -/
def findSubAux (pat : List Char) : List Char → Nat → Option Nat
  | [], i => if litAt pat [] then some i else none
  | c :: cs, i =>
    if litAt pat (c :: cs) then some i else findSubAux pat cs (i + 1)

/-- Helper for `pyRfind`: last index `≥ i` at which `pat` occurs. -/
def rfindSubAux (pat : List Char) : List Char → Nat → Option Nat → Option Nat
  | [], i, acc => if litAt pat [] then some i else acc
  | c :: cs, i, acc =>
    rfindSubAux pat cs (i + 1) (if litAt pat (c :: cs) then some i else acc)

/-- Python `s.find(pat)`: lowest occurrence index, `-1` when absent. -/
def pyFind (s pat : String) : Int :=
  match findSubAux pat.data s.data 0 with
  | some i => (i : Int)
  | none => -1

/-- Python `s.rfind(pat)`: highest occurrence index, `-1` when absent. -/
def pyRfind (s pat : String) : Int :=
  match rfindSubAux pat.data s.data 0 none with
  | some i => (i : Int)
  | none => -1

/-- Python slicing `s[a:b]` with negative-index normalisation. -/
def pySlice (s : String) (a b : Int) : String :=
  let n := s.length
  let norm : Int → Nat := fun x =>
    if x < 0 then ((n : Int) + x).toNat else min x.toNat n
  String.mk ((s.data.drop (norm a)).take (norm b - norm a))

/-! ## filter_existing_links (src/news_scraper/scraper.py lines 16-62) -/

/-- The batch slices produced by `for i in range(0, len(l), bs): l[i:i+bs]`. -/
def toBatches {α : Type} (bs : Nat) (l : List α) : List (List α) :=
  if h : bs = 0 ∨ l.length = 0 then []
  else (l.take bs) :: toBatches bs (l.drop bs)
  termination_by l.length
  decreasing_by simp only [List.length_drop]; omega

/-- Shallow embedding of `filter_existing_links`.  `stored` is the multiset of
`source_url` values in the `news_articles` table; `dbOk = false` models any
exception raised inside the `try` block (the `except` branch returns `[]`).
The DB query `source_url.in_(batch)` is modelled as filtering the batch by
membership in `stored`; only membership in the resulting set is ever used. -/
def filter_existing_links (dbOk : Bool) (stored : List String)
    (links : List (String × String)) : List (String × String) :=
  if links = [] then links
  else if dbOk then
    let existing_urls : List String :=
      (toBatches 100 links).foldl
        (fun acc batch =>
          acc ++ (batch.map Prod.snd).filter (fun u => decide (u ∈ stored))) []
    links.filter (fun tl => decide (tl.2 ∉ existing_urls))
  else []

/-! ## save_scraper_results_to_db (src/database/operations.py lines 14-171) -/

/-- A parsed publication date (the output of the `datetime.strptime` boundary). -/
structure PDate where
  y : Nat
  m : Nat
  d : Nat
deriving DecidableEq, Repr

/-- One element of `result["articles"]`: each field may be present under its
localized key, its English key, both, or neither. -/
structure RawArticle where
  titleZh : Option String
  titleEn : Option String
  reporterZh : Option String
  reporterEn : Option String
  summaryZh : Option String
  summaryEn : Option String
  dateZh : Option String
  dateEn : Option String
  linkZh : Option String
  linkEn : Option String
deriving DecidableEq, Repr

/-- A persisted `news_articles` row (the columns written by the pipeline). -/
structure DBRow where
  title : String
  reporter : Option String
  summary : Option String
  publish_date : PDate
  source_url : String
  source_site : String
deriving DecidableEq, Repr

/-- Per-run statistics dictionary of `save_scraper_results_to_db`. -/
structure SaveStats where
  total : Nat
  inserted : Nat
  updated : Nat
  skipped : Nat
  failed : Nat
deriving DecidableEq, Repr

/-- Python `article.get(zhKey) or article.get(enKey, "")`: the localized value
when present and truthy (non-empty), else the English value, else `""`. -/
def pyOrStr (a b : Option String) : String :=
  match a with
  | some s => if s = "" then b.getD "" else s
  | none => b.getD ""

/-- One iteration of the first loop of `save_scraper_results_to_db`:
field resolution, required-field validation, date parsing; a failure bumps
the failed counter, success appends to `valid_articles`. -/
def processArticle (parseDate : String → Option PDate) (site : String)
    (acc : List DBRow × Nat) (a : RawArticle) : List DBRow × Nat :=
  let title := pyOrStr a.titleZh a.titleEn
  let reporter := pyOrStr a.reporterZh a.reporterEn
  let summary := pyOrStr a.summaryZh a.summaryEn
  let dateStr := pyOrStr a.dateZh a.dateEn
  let url := pyOrStr a.linkZh a.linkEn
  if title = "" ∨ url = "" ∨ dateStr = "" then (acc.1, acc.2 + 1)
  else
    match parseDate dateStr with
    | none => (acc.1, acc.2 + 1)
    | some d =>
      (acc.1 ++ [{ title := title
                   reporter := if reporter = "" then none else some reporter
                   summary := if summary = "" then none else some summary
                   publish_date := d
                   source_url := url
                   source_site := site }], acc.2)

/-- `(valid_articles, failed)` after the first loop. -/
def validOf (parseDate : String → Option PDate) (site : String)
    (articles : List RawArticle) : List DBRow × Nat :=
  articles.foldl (processArticle parseDate site) ([], 0)

/-- The condition under which `bulk_insert_mappings` + `commit` raises
`IntegrityError`: the unique constraint on `news_articles.source_url`
(src/database/models.py) is violated, either against an existing row or
between two rows of the same batch. -/
def hasIntegrityViolation (db : List DBRow) (valid : List DBRow) : Bool :=
  valid.any (fun r => db.any (fun q => q.source_url == r.source_url))
    || !(decide (valid.map (fun r => r.source_url)).Nodup)

/-- Shallow embedding of `save_scraper_results_to_db`.  `result = none` models
a result dict that is falsy or lacks the `"articles"` key; `dbOtherError`
models the generic `except Exception` branch of the bulk insert (any non-
integrity database failure).  Returns the statistics dict and the new table
contents. -/
def save_scraper_results_to_db (parseDate : String → Option PDate)
    (dbOtherError : Bool) (db : List DBRow)
    (result : Option (List RawArticle)) (site : String) :
    SaveStats × List DBRow :=
  match result with
  | none => (⟨0, 0, 0, 0, 0⟩, db)
  | some articles =>
    if articles = [] then (⟨0, 0, 0, 0, 0⟩, db)
    else
      let va := validOf parseDate site articles
      if va.1 = [] then (⟨articles.length, 0, 0, 0, va.2⟩, db)
      else if hasIntegrityViolation db va.1 then
        (⟨articles.length, 0, 0, 0, va.2 + va.1.length⟩, db)
      else if dbOtherError then
        (⟨articles.length, 0, 0, 0, va.2 + va.1.length⟩, db)
      else
        (⟨articles.length, va.1.length, 0, 0, va.2⟩, db ++ va.1)

/-! ## extract_news_links and fix_json_response
(src/news_scraper/scraper.py lines 283-527) -/

/-- A parsed JSON value (the output type of the `json.loads` boundary). -/
inductive Json where
  | null : Json
  | bool (b : Bool) : Json
  | num (n : Int) : Json
  | str (s : String) : Json
  | arr (items : List Json) : Json
  | obj (fields : List (String × Json)) : Json

/-- `re.sub(r'^LIT\s*', '', s)`: if `s` starts with the literal, drop it and
the following whitespace run; otherwise `s` unchanged. -/
def subFencePre (lit : String) (s : String) : String :=
  if litAt lit.data s.data then
    String.mk ((s.data.drop lit.length).dropWhile Char.isWhitespace)
  else s

/-- `re.sub(r'\s*``` + '`' + r'$', '', s)`: remove a trailing code fence
(Python `$` also matches just before one trailing newline) together with the
whitespace run before it. -/
def subFenceSuf (s : String) : String :=
  let cs := s.data
  let (core, tail) :=
    if cs.getLast? = some '\n' then (cs.dropLast, ['\n']) else (cs, [])
  if litAt "```".data.reverse core.reverse then
    String.mk ((((core.reverse.drop 3).dropWhile Char.isWhitespace).reverse) ++ tail)
  else s

/-- `re.sub(r'<think>.*?</think>', '', s, flags=re.DOTALL)`: repeatedly remove
the leftmost minimal `<think>...</think>` segment, continuing after it. -/
def removeThinkAux : Nat → List Char → List Char
  | 0, s => s
  | fuel + 1, s =>
    match findSubAux "<think>".data s 0 with
    | none => s
    | some i =>
      let rest := s.drop (i + 7)
      match findSubAux "</think>".data rest 0 with
      | none => s
      | some j => s.take i ++ removeThinkAux fuel (rest.drop (j + 8))

/-- The response-cleaning sequence applied to every model reply in
`extract_news_links` (lines 454, 471-477) and `fix_json_response`
(lines 322, 334-338): strip, remove leading/trailing code-fence markers,
remove reasoning segments, strip again. -/
def cleanResponse (raw : String) : String :=
  let t0 := pyStrip raw
  let t1 := subFencePre "```json" t0
  let t2 := subFencePre "```" t1
  let t3 := subFenceSuf t2
  let t4 := String.mk (removeThinkAux t3.length t3.data)
  pyStrip t4

/-- `item.get(k, '')` on a parsed JSON object: the field value when the key is
present, else the empty string (the Python default). -/
def getField (fields : List (String × Json)) (k : String) : Json :=
  match fields.find? (fun p => p.1 == k) with
  | some p => p.2
  | none => Json.str ""

/-- `.strip()` applied to a fetched field: succeeds only on a string value;
any other value raises `AttributeError` (modelled as `none`). -/
def stripStrField (j : Json) : Option String :=
  match j with
  | Json.str s => some (pyStrip s)
  | _ => none

/-- One iteration of the item loop (lines 507-514): a non-object item, or a
`title`/`link` value that is not a string, raises (`none`); an object with
empty/missing `title` or `link` contributes nothing; otherwise one
`(title, build_full_link(link))` pair. -/
def processItem (buildFullLink : String → String) (j : Json) :
    Option (List (String × String)) :=
  match j with
  | Json.obj fields =>
    match stripStrField (getField fields "title"),
          stripStrField (getField fields "link") with
    | some title, some link =>
      if title ≠ "" ∧ link ≠ "" then some [(title, buildFullLink link)]
      else some []
    | _, _ => none
  | _ => none

/-- The whole item loop over the parsed value `news_list`.  Iterating a
non-list raises, except that an empty dict or empty string iterates zero
times and yields no links. -/
def processItems (buildFullLink : String → String) (j : Json) :
    Option (List (String × String)) :=
  match j with
  | Json.arr items => (items.mapM (processItem buildFullLink)).map List.flatten
  | Json.obj fields => if fields.isEmpty then some [] else none
  | Json.str s => if s = "" then some [] else none
  | _ => none

/-- `fix_json_response` (lines 283-352): a second model call asking to repair
`broken` (the fixed instruction wrapper around `broken` is constant, so the
round trip is modelled as a function of `broken` alone), whose reply is
cleaned by the same sequence and validated with `json.loads`; an invoke
error or an invalid reply re-raises (`none`). -/
def fix_json_response (parse : String → Option Json)
    (llmFix : String → Option String) (broken : String) : Option String :=
  match llmFix broken with
  | none => none
  | some resp =>
    let t := cleanResponse resp
    match parse t with
    | none => none
    | some _ => some t

/-- Which parsing tier produced the accepted JSON value. -/
inductive ParseTier where
  | direct
  | repaired
  | truncated
  | wrappedFirst
deriving DecidableEq, Repr

/-- The manual fallback repair (lines 492-504): truncate at the last `},`
boundary (`rfind`, index required > 0) and close the array; with no such
boundary, wrap the substring from the first `{` to the first `}` (index
required > 0) in an array; any remaining parse failure or absence of a `}`
re-raises (`none`, caught by the outer handler). -/
def manualRepair (parse : String → Option Json) (result_text : String) :
    Option (Json × ParseTier) :=
  let last_complete := pyRfind result_text "\x7d,"
  if last_complete > 0 then
    match parse (pySlice result_text 0 (last_complete + 1) ++ "]") with
    | some j => some (j, ParseTier.truncated)
    | none => none
  else
    let first_obj_end := pyFind result_text "\x7d"
    if first_obj_end > 0 then
      match parse ("[" ++ pySlice result_text (pyFind result_text "\x7b")
          (first_obj_end + 1) ++ "]") with
      | some j => some (j, ParseTier.wrappedFirst)
      | none => none
    else none

/-- The parse-with-repair chain of `extract_news_links` (lines 479-504) on
the cleaned response text.  The second component records whether
`fix_json_response` was invoked. -/
def parseChain (parse : String → Option Json) (llmFix : String → Option String)
    (cleaned : String) : Option (Json × ParseTier) × Bool :=
  match parse cleaned with
  | some j => (some (j, ParseTier.direct), false)
  | none =>
    match fix_json_response parse llmFix cleaned with
    | some fixedText =>
      match parse fixedText with
      | some j => (some (j, ParseTier.repaired), true)
      | none => (manualRepair parse cleaned, true)
    | none => (manualRepair parse cleaned, true)

/-- The value returned by `clean_html_to_text`: the base class returns a
`(text, links)` tuple; a subclass override may return plain text
(lines 385-392 dispatch on `isinstance(result, tuple)`). -/
inductive CleanOut where
  | pair (text : String) (links : List String)
  | plain (text : String)

/-- Lines 386-392: a tuple is combined as text + the serialized link
inventory; plain text is used as-is. -/
def combineClean : CleanOut → String
  | CleanOut.pair t ls =>
    t ++ "\n\n連結列表：\n" ++ String.mk (List.intercalate "\n".data (ls.map String.data))
  | CleanOut.plain t => t

def pySplitSepAux (sep : List Char) : Nat → List Char → List (List Char)
  | 0, cs => [cs]
  | fuel + 1, cs =>
    match findSubAux sep cs 0 with
    | none => [cs]
    | some i => cs.take i :: pySplitSepAux sep fuel (cs.drop (i + sep.length))

/-- Python `s.split(sep)` for a non-empty separator. -/
def pySplitSep (sep s : String) : List String :=
  (pySplitSepAux sep.data (s.data.length + 1) s.data).map String.mk

/-- `date_str.split('/')[-2] + '/' + date_str.split('/')[-1]` (line 417);
defined for date strings with at least two `/`-separated components (the
callers always pass `%Y/%m/%d`-formatted strings). -/
def dateShortOf (dateStr : String) : String :=
  let parts := pySplitSep "/" dateStr
  parts.getD (parts.length - 2) "" ++ "/" ++ parts.getD (parts.length - 1) ""

/-- How one call of `extract_news_links` ended. -/
inductive ExtractOutcome where
  | blockFail
  | tooShort
  | llmError
  | parsed (tier : ParseTier)
  | parseGaveUp
  | itemError
deriving DecidableEq, Repr

/-- The observable result of one `extract_news_links` call:
the returned list, how it ended, whether `fix_json_response` was invoked,
and the content embedded in the model query (when the call was reached). -/
structure ExtractResult where
  links : List (String × String)
  outcome : ExtractOutcome
  fixCalled : Bool
  sentContent : Option String
deriving DecidableEq, Repr

/-- Shallow embedding of `extract_news_links` (lines 355-527).
Oracles: `extractBlock` = `self.extract_news_block`; `cleanHtml` = the
`clean_html_to_text` boundary (BeautifulSoup); `llmExtract` = the extraction
model call as a function of (short target date, embedded content);
`llmFix` = the repair model call; `parse` = `json.loads`;
`buildFullLink` = `self.build_full_link`. -/
def extract_news_links (extractBlock : String → Option String)
    (cleanHtml : String → CleanOut)
    (llmExtract : String → String → Option String)
    (llmFix : String → Option String)
    (parse : String → Option Json)
    (buildFullLink : String → String)
    (content : String) (dateStr : String) : ExtractResult :=
  match extractBlock content with
  | none => ⟨[], ExtractOutcome.blockFail, false, none⟩
  | some blk =>
    if blk = "" then ⟨[], ExtractOutcome.blockFail, false, none⟩
    else
      let combined := combineClean (cleanHtml blk)
      if (pyStrip combined).length < 100 then
        ⟨[], ExtractOutcome.tooShort, false, none⟩
      else
        let sent := String.mk (combined.data.take 8000)
        match llmExtract (dateShortOf dateStr) sent with
        | none => ⟨[], ExtractOutcome.llmError, false, some sent⟩
        | some resp =>
          let cleaned := cleanResponse resp
          match parseChain parse llmFix cleaned with
          | (none, fc) => ⟨[], ExtractOutcome.parseGaveUp, fc, some sent⟩
          | (some (j, tier), fc) =>
            match processItems buildFullLink j with
            | none => ⟨[], ExtractOutcome.itemError, fc, some sent⟩
            | some links => ⟨links, ExtractOutcome.parsed tier, fc, some sent⟩

/-! ## generate_embeddings_for_articles
(src/scripts/generate_embeddings.py lines 27-201); the model covers the
per-batch body of the loop at lines 98-184, which touches one batch at a
time and accumulates statistics. -/

/-- A `NewsArticle` row as seen by the embedding generator.  `Emb` is the
vector type returned by the embedding service (opaque here).  Python
truthiness of `article.title` / `article.summary` is emptiness of the
string (a NULL summary behaves like `""` for both the truthiness test and
`is None` never applies to it in this loop's conditions, which test only the
embedding columns). -/
structure EmbArticle (Emb : Type) where
  title : String
  summary : String
  title_embedding : Option Emb
  summary_embedding : Option Emb
deriving DecidableEq, Repr

/-- Statistics accumulated by the embedding loop (total omitted: it is fixed
up front and never touched by the batch body). -/
structure EmbStats where
  success : Nat
  failed : Nat
  title_generated : Nat
  summary_generated : Nat
deriving DecidableEq, Repr

/-- Lines 113-115: a record collects a title for embedding when
`force_update or title_embedding is None` and the title is truthy. -/
def needsTitle {Emb : Type} (force : Bool) (a : EmbArticle Emb) : Bool :=
  (force || a.title_embedding.isNone) && decide (a.title ≠ "")

/-- Lines 119-121, same for the summary. -/
def needsSummary {Emb : Type} (force : Bool) (a : EmbArticle Emb) : Bool :=
  (force || a.summary_embedding.isNone) && decide (a.summary ≠ "")

/-- `title_indices` after the collection loop (lines 111-121). -/
def title_indices {Emb : Type} (force : Bool) (batch : List (EmbArticle Emb)) :
    List Nat :=
  (batch.enum.filter (fun p => needsTitle force p.2)).map Prod.fst

/-- `titles` after the collection loop. -/
def titlesOf {Emb : Type} (force : Bool) (batch : List (EmbArticle Emb)) :
    List String :=
  (batch.enum.filter (fun p => needsTitle force p.2)).map (fun p => p.2.title)

/-- `summary_indices` after the collection loop. -/
def summary_indices {Emb : Type} (force : Bool)
    (batch : List (EmbArticle Emb)) : List Nat :=
  (batch.enum.filter (fun p => needsSummary force p.2)).map Prod.fst

/-- `summaries` after the collection loop. -/
def summariesOf {Emb : Type} (force : Bool) (batch : List (EmbArticle Emb)) :
    List String :=
  (batch.enum.filter (fun p => needsSummary force p.2)).map (fun p => p.2.summary)

def addStats (x y : EmbStats) : EmbStats :=
  ⟨x.success + y.success, x.failed + y.failed,
   x.title_generated + y.title_generated,
   x.summary_generated + y.summary_generated⟩

/-- Lines 158-163: write the title vector when the index is tracked and the
returned embedding list is long enough; the second component is the
`title_generated` increment. -/
def writeTitle {Emb : Type} (tIdx : List Nat) (tEmbs : List Emb)
    (p : Nat × EmbArticle Emb) : EmbArticle Emb × Nat :=
  if tIdx.contains p.1 then
    let e := tIdx.indexOf p.1
    if h : e < tEmbs.length then
      ({ p.2 with title_embedding := some (tEmbs.get ⟨e, h⟩) }, 1)
    else (p.2, 0)
  else (p.2, 0)

/-- Lines 166-171, same for the summary vector. -/
def writeSummary {Emb : Type} (sIdx : List Nat) (sEmbs : List Emb)
    (a : EmbArticle Emb) (idx : Nat) : EmbArticle Emb × Nat :=
  if sIdx.contains idx then
    let e := sIdx.indexOf idx
    if h : e < sEmbs.length then
      ({ a with summary_embedding := some (sEmbs.get ⟨e, h⟩) }, 1)
    else (a, 0)
  else (a, 0)

/-- One iteration of the update loop (lines 153-184) on `(idx, article)`.
`commitOk idx = false` models `db.commit()` raising, in which case the
rollback reverts the record's pending writes but the already-incremented
generated-counters stand, and `failed` is bumped; `success` counts records
whose commit followed at least one write. -/
def updateOne {Emb : Type} (tIdx sIdx : List Nat) (tEmbs sEmbs : List Emb)
    (commitOk : Nat → Bool) (p : Nat × EmbArticle Emb) :
    EmbArticle Emb × EmbStats :=
  let r1 := writeTitle tIdx tEmbs p
  let r2 := writeSummary sIdx sEmbs r1.1 p.1
  if r1.2 + r2.2 > 0 then
    if commitOk p.1 then (r2.1, ⟨1, 0, r1.2, r2.2⟩)
    else (p.2, ⟨0, 1, r1.2, r2.2⟩)
  else (r2.1, ⟨0, 0, r1.2, r2.2⟩)

/-- The update loop over the whole batch: each iteration is independent of
the others, so the loop is the map of `updateOne` over the enumerated batch,
with the statistics deltas summed. -/
def updateLoop {Emb : Type} (tIdx sIdx : List Nat) (tEmbs sEmbs : List Emb)
    (commitOk : Nat → Bool) (batch : List (EmbArticle Emb)) :
    List (EmbArticle Emb) × EmbStats :=
  let rs := batch.enum.map (updateOne tIdx sIdx tEmbs sEmbs commitOk)
  (rs.map Prod.fst, rs.foldl (fun acc r => addStats acc r.2) ⟨0, 0, 0, 0⟩)

/-- The body of one batch iteration of `generate_embeddings_for_articles`
(lines 98-184).  `genT`/`genS` are the two `generator.generate_embeddings`
calls (`none` = the call raised; the embedding list then stays `[]`, lines
125/139); `commitOk` is the per-record `db.commit()` outcome. -/
def generate_embeddings_batch {Emb : Type} (force : Bool)
    (genT genS : List String → Option (List Emb)) (commitOk : Nat → Bool)
    (batch : List (EmbArticle Emb)) : List (EmbArticle Emb) × EmbStats :=
  let titles := titlesOf force batch
  let tIdx := title_indices force batch
  let summaries := summariesOf force batch
  let sIdx := summary_indices force batch
  let tEmbs := if titles.isEmpty then [] else (genT titles).getD []
  let sEmbs := if summaries.isEmpty then [] else (genS summaries).getD []
  updateLoop tIdx sIdx tEmbs sEmbs commitOk batch

/-! ## extract_article_info (src/news_scraper/scraper.py lines 529-601) -/

/-- The character class `[：:]`. -/
def isColon (c : Char) : Bool := c = '：' || c = ':'

/-- The character class `[^\s\/]` of the secondary byline pattern. -/
def isNameChar (c : Char) : Bool := !c.isWhitespace && c ≠ '/'

/-- One anchored attempt of `re.search(r'記者[：:]\s*(.+?)(?:\n|$)', text)`
at the current position: after the literal and the colon, greedy `\s*` then
the lazy dot-group runs to the first newline (or the end); when the
whitespace run reaches the end of the string the engine backtracks inside
the run, capturing the last non-newline whitespace character. -/
def reporterAttempt (cs : List Char) : Option (List Char) :=
  match cs with
  | '記' :: '者' :: c :: rest =>
    if isColon c then
      let ws := rest.takeWhile Char.isWhitespace
      if ws.length < rest.length then
        some ((rest.drop ws.length).takeWhile (fun ch => ch ≠ '\n'))
      else
        match rest.reverse.dropWhile (fun ch => ch = '\n') with
        | [] => none
        | ch :: _ => some [ch]
    else none
  | _ => none

/-- `re.search` scanning for the byline pattern: try every start position
left to right (the attempt at the empty final position always fails). -/
def reporterSearch : List Char → Option (List Char)
  | [] => none
  | c :: rest =>
    match reporterAttempt (c :: rest) with
    | some g => some g
    | none => reporterSearch rest

/-- Group 2 of the secondary pattern, `[^\s\/]{2,5}` with nothing after it:
greedily up to five name characters, at least two. -/
def group2At (cs : List Char) : Option (List Char) :=
  let g := (cs.takeWhile isNameChar).take 5
  if 2 ≤ g.length then some g else none

/-- One literal alternative of the optional group 1 followed by group 2. -/
def tryWordAlt (w : String) (cs : List Char) : Option (List Char) :=
  if litAt w.data cs then group2At (cs.drop w.data.length) else none

/-- The `記者\s*[：:]?\s*` alternative of group 1 followed by group 2
(whitespace runs and the optional colon consumed greedily; since group 2
starts with a non-whitespace character this is the deterministic reading of
the backtracking engine). -/
def tryReporterAlt (cs : List Char) : Option (List Char) :=
  if litAt "記者".data cs then
    let r1 := cs.drop 2
    let r2 := r1.drop (r1.takeWhile Char.isWhitespace).length
    let r3 :=
      match r2 with
      | c :: rest => if isColon c then rest else r2
      | [] => r2
    let r4 := r3.drop (r3.takeWhile Char.isWhitespace).length
    group2At r4
  else none

/-- One anchored attempt of the secondary pattern
`(政治中心|國際中心|生活中心|社會中心|記者\s*[：:]?\s*)?([^\s\/]{2,5})`:
the alternatives of the optional group 1 are tried in order, then the empty
prefix. -/
def secondaryAttempt (cs : List Char) : Option (List Char) :=
  match tryWordAlt "政治中心" cs with
  | some g => some g
  | none =>
    match tryWordAlt "國際中心" cs with
    | some g => some g
    | none =>
      match tryWordAlt "生活中心" cs with
      | some g => some g
      | none =>
        match tryWordAlt "社會中心" cs with
        | some g => some g
        | none =>
          match tryReporterAlt cs with
          | some g => some g
          | none => group2At cs

/-- `re.search` scanning for the secondary pattern (the attempt at the empty
final position always fails: group 2 needs two characters). -/
def secondarySearch : List Char → Option (List Char)
  | [] => none
  | c :: rest =>
    match secondaryAttempt (c :: rest) with
    | some g => some g
    | none => secondarySearch rest

/-- One anchored attempt of `re.search(r'大綱[：:]\s*(.+)', text, re.DOTALL)`:
greedy whitespace after the colon, then the greedy dot-group takes the whole
remainder (at least one character, backtracking one step into the
whitespace run when it reaches the end). -/
def summaryAttempt (cs : List Char) : Option (List Char) :=
  match cs with
  | '大' :: '綱' :: c :: rest =>
    if isColon c then
      if rest.isEmpty then none
      else
        some (rest.drop (min (rest.takeWhile Char.isWhitespace).length
          (rest.length - 1)))
    else none
  | _ => none

/-- `re.search` scanning for the synopsis pattern (the attempt at the empty
final position always fails). -/
def summarySearch : List Char → Option (List Char)
  | [] => none
  | c :: rest =>
    match summaryAttempt (c :: rest) with
    | some g => some g
    | none => summarySearch rest

/-- The parsing of the model reply (lines 580-598): byline default
`未提及`; a captured byline is stripped and, when longer than 20
characters, replaced by the secondary pattern's short token (its group 2,
which is never empty when the pattern matches) or the `未提及` sentinel;
the synopsis is the stripped capture of the `大綱` pattern or `""`. -/
def parseArticleReply (result_text : String) : String × String :=
  let reporter :=
    match reporterSearch result_text.data with
    | none => "未提及"
    | some g =>
      let r := pyStrip (String.mk g)
      if r.length > 20 then
        match secondarySearch r.data with
        | some g2 => String.mk g2
        | none => "未提及"
      else r
  let summary :=
    match summarySearch result_text.data with
    | none => ""
    | some g => pyStrip (String.mk g)
  (reporter, summary)

/-- Shallow embedding of `extract_article_info`: the model is invoked on the
first 1500 characters of the content; any invocation error degrades to
`("未提及", "")`; otherwise the stripped reply is parsed. -/
def extract_article_info (llm : String → Option String) (content : String) :
    String × String :=
  match llm (String.mk (content.data.take 1500)) with
  | none => ("未提及", "")
  | some resp => parseArticleReply (pyStrip resp)

/-! ## Per-site block extractors
(src/scrapers/setn_scraper.py lines 34-77,
src/scrapers/chinatimes_scraper.py lines 34-67).
The specific regular expressions used there are deterministic: every greedy
sub-pattern (`\s+`, `\s*`, `[^>]*`, `[^"]*`) is followed by a character it
cannot match, so maximal munch is exact, and the lazy `(.*?)` group is the
shortest prefix whose suffix matches the pattern tail. -/

/-- Lower-case an ASCII letter (for `re.IGNORECASE`). -/
def lowerChar (c : Char) : Char :=
  if 'A' ≤ c ∧ c ≤ 'Z' then Char.ofNat (c.toNat + 32) else c

/-- Case-insensitive literal prefix test. -/
def litAtCI : List Char → List Char → Bool
  | [], _ => true
  | _ :: _, [] => false
  | p :: ps, c :: cs => (lowerChar p == lowerChar c) && litAtCI ps cs

/-- Match a literal case-insensitively, returning the remaining input. -/
def matchLitCI (pat : String) (cs : List Char) : Option (List Char) :=
  if litAtCI pat.data cs then some (cs.drop pat.data.length) else none

/-- Match `\s+` (maximal munch). -/
def matchWs1 (cs : List Char) : Option (List Char) :=
  let ws := cs.takeWhile Char.isWhitespace
  if ws.length = 0 then none else some (cs.drop ws.length)

/-- Consume `\s*` (maximal munch). -/
def matchWs0 (cs : List Char) : List Char :=
  cs.drop (cs.takeWhile Char.isWhitespace).length

/-- Match `[^>]*>` (maximal munch). -/
def matchNotGtThenGt (cs : List Char) : Option (List Char) :=
  match cs.drop (cs.takeWhile (fun c => c ≠ '>')).length with
  | '>' :: rest => some rest
  | _ => none

/-- The smallest split point of the lazy `(.*?)` group: the least offset at
which the pattern tail matches. -/
def lazyUntil (Bok : List Char → Bool) : List Char → Option Nat
  | [] => if Bok [] then some 0 else none
  | c :: rest =>
    if Bok (c :: rest) then some 0 else (lazyUntil Bok rest).map (· + 1)

/-- `re.search` for a pattern of the shape `A(.*?)B` with `re.DOTALL`:
try each start position left to right; at the first position where `A`
matches and `B` matches at some later point, return the minimal group. -/
def searchGroup (A : List Char → Option (List Char)) (Bok : List Char → Bool) :
    List Char → Option (List Char)
  | [] => (A []).bind fun r => (lazyUntil Bok r).map fun j => r.take j
  | c :: rest =>
    match (A (c :: rest)).bind fun r =>
        (lazyUntil Bok r).map fun j => r.take j with
    | some g => some g
    | none => searchGroup A Bok rest

/-- Scan `[^"]*MARKER` inside an href value. -/
def scanForMarker (marker : String) : List Char → Bool
  | [] => false
  | c :: rest =>
    if litAtCI marker.data (c :: rest) then true
    else if c = '"' then false
    else scanForMarker marker rest

/-- Scan `[^>]*href="[^"]*MARKER` after the `<a`. -/
def scanForHref (marker : String) : List Char → Bool
  | [] => false
  | c :: rest =>
    if litAtCI "href=\"".data (c :: rest) then
      scanForMarker marker ((c :: rest).drop 6)
    else if c = '>' then false
    else scanForHref marker rest

/-- `re.search(r'<a[^>]*href="[^"]*MARKER', content).start()`: the index of
the first anchor whose href contains the site-specific marker. -/
def anchorSearchIdx (marker : String) : List Char → Nat → Option Nat
  | [], _ => none
  | c :: rest, i =>
    let hit :=
      match matchLitCI "<a" (c :: rest) with
      | some r => scanForHref marker r
      | none => false
    if hit then some i else anchorSearchIdx marker rest (i + 1)

/-- The position-heuristic window: `content[max(0, i-200) : max(0, i-200) +
50000]`. -/
def positionWindow (content : String) (i : Nat) : String :=
  pySlice content ((i - 200 : Nat) : Int) (((i - 200 : Nat) : Int) + 50000)

/-- The `A` part of the Setn primary pattern
`<div\s+class="container main-news-area viewallNewsList"\s+id="contFix"[^>]*>`. -/
def setnA1 (cs : List Char) : Option (List Char) :=
  (matchLitCI "<div" cs).bind fun r1 =>
  (matchWs1 r1).bind fun r2 =>
  (matchLitCI "class=\"container main-news-area viewallNewsList\"" r2).bind
    fun r3 =>
  (matchWs1 r3).bind fun r4 =>
  (matchLitCI "id=\"contFix\"" r4).bind fun r5 =>
  matchNotGtThenGt r5

/-- The tail `</div>\s*<!--\s*contFix` of the Setn primary pattern. -/
def setnB1 (cs : List Char) : Option (List Char) :=
  (matchLitCI "</div>" cs).bind fun r1 =>
  (matchLitCI "<!--" (matchWs0 r1)).bind fun r2 =>
  matchLitCI "contFix" (matchWs0 r2)

/-- The `A` part of the Setn backup pattern `id="contFix"[^>]*>`. -/
def setnA2 (cs : List Char) : Option (List Char) :=
  (matchLitCI "id=\"contFix\"" cs).bind matchNotGtThenGt

/-- The tail `</div>\s*</div>\s*</div>\s*<!--` of the Setn backup pattern. -/
def setnB2 (cs : List Char) : Option (List Char) :=
  (matchLitCI "</div>" cs).bind fun r1 =>
  (matchLitCI "</div>" (matchWs0 r1)).bind fun r2 =>
  (matchLitCI "</div>" (matchWs0 r2)).bind fun r3 =>
  matchLitCI "<!--" (matchWs0 r3)

/-- Which branch of `SetnScraper.extract_news_block` produced the result. -/
inductive SetnTier where
  | structuralPrimary
  | structuralBackup
  | positional
  | noneFound
deriving DecidableEq, Repr

/-- `SetnScraper.extract_news_block` with its returning branch recorded:
primary structural pattern, backup structural pattern, then the position
heuristic anchored on the first `NewsID=` link. -/
def setn_extract_news_blockT (content : String) : Option String × SetnTier :=
  match searchGroup setnA1 (fun cs => (setnB1 cs).isSome) content.data with
  | some g => (some (String.mk g), SetnTier.structuralPrimary)
  | none =>
    match searchGroup setnA2 (fun cs => (setnB2 cs).isSome) content.data with
    | some g => (some (String.mk g), SetnTier.structuralBackup)
    | none =>
      match anchorSearchIdx "NewsID=" content.data 0 with
      | some i => (some (positionWindow content i), SetnTier.positional)
      | none => (none, SetnTier.noneFound)

def setn_extract_news_block (content : String) : Option String :=
  (setn_extract_news_blockT content).1

/-- The `A` part of the ChinaTimes pattern
`<section\s+class="article-list"[^>]*>`. -/
def chinaA1 (cs : List Char) : Option (List Char) :=
  (matchLitCI "<section" cs).bind fun r1 =>
  (matchWs1 r1).bind fun r2 =>
  (matchLitCI "class=\"article-list\"" r2).bind fun r3 =>
  matchNotGtThenGt r3

/-- The tail `</section>` of the ChinaTimes pattern. -/
def chinaB1 (cs : List Char) : Option (List Char) :=
  matchLitCI "</section>" cs

/-- Which branch of `ChinaTimesScraper.extract_news_block` produced the
result: the source has exactly one structural pattern and then the position
heuristic — there is no second structural tier. -/
inductive ChinaTier where
  | structural
  | positional
  | noneFound
deriving DecidableEq, Repr

/-- `ChinaTimesScraper.extract_news_block` with its returning branch
recorded: the structural pattern, then directly the position heuristic
anchored on the first `/realtimenews/` link. -/
def chinatimes_extract_news_blockT (content : String) :
    Option String × ChinaTier :=
  match searchGroup chinaA1 (fun cs => (chinaB1 cs).isSome) content.data with
  | some g => (some (String.mk g), ChinaTier.structural)
  | none =>
    match anchorSearchIdx "/realtimenews/" content.data 0 with
    | some i => (some (positionWindow content i), ChinaTier.positional)
    | none => (none, ChinaTier.noneFound)

def chinatimes_extract_news_block (content : String) : Option String :=
  (chinatimes_extract_news_blockT content).1

/-! ## scrape_news (src/news_scraper/scraper.py lines 603-744) -/

/-- The network events of one run, in order. -/
inductive RunEvent where
  | listFetch (url : String)
  | detailFetch (url : String)
deriving DecidableEq, Repr

/-- The per-site configuration relevant to paging. -/
structure ScraperConfig where
  base_url : String
  page_url_format : Option String
deriving DecidableEq, Repr

/-- `get_page_url` (lines 159-173): the configured format with `{page}`
substituted, or the default `base_url&p=page`. -/
def get_page_url (cfg : ScraperConfig) (page : Nat) : String :=
  match cfg.page_url_format with
  | some fmt =>
    String.mk (List.intercalate (toString page).data
      (pySplitSepAux "\x7bpage\x7d".data (fmt.data.length + 1) fmt.data))
  | none => cfg.base_url ++ "&p=" ++ toString page

/-- The intra-run deduplication loop (lines 668-673): keep the first
occurrence of each link. -/
def dedupLinks : List (String × String) → List String → List (String × String)
  | [], _ => []
  | (t, l) :: rest, seen =>
    if l ∈ seen then dedupLinks rest seen
    else (t, l) :: dedupLinks rest (l :: seen)

/-- All candidate links collected during the list phase (lines 640-665):
for page 1..num_pages, fetch the list page and run the extraction
protocol on it. -/
def scrapeCandidates (cfg : ScraperConfig) (fetchList : String → String)
    (eb : String → Option String) (ch : String → CleanOut)
    (le : String → String → Option String) (lf : String → Option String)
    (parse : String → Option Json) (bfl : String → String)
    (num_pages : Nat) (dateStrFull : String) : List (String × String) :=
  (((List.range num_pages).map (fun k => get_page_url cfg (k + 1))).map
    (fun u => (extract_news_links eb ch le lf parse bfl (fetchList u)
      dateStrFull).links)).flatten

/-- Shallow embedding of `scrape_news`: list phase (fetch + extract per
page), intra-run deduplication, existing-record filter, truncation to
`max_articles`, then the detail phase (fetch + article-info extraction per
remaining link).  Returns the run's article dicts (`articles_data`, with the
localized keys populated) and the ordered trace of network events. -/
def scrape_news (cfg : ScraperConfig) (fetchList : String → String)
    (eb : String → Option String) (ch : String → CleanOut)
    (le : String → String → Option String) (lf : String → Option String)
    (parse : String → Option Json) (bfl : String → String)
    (dbOk : Bool) (stored : List String)
    (fetchArticle : String → String) (llmInfo : String → Option String)
    (num_pages max_articles : Nat) (dateStrFull : String) :
    List RawArticle × List RunEvent :=
  let pageUrls := (List.range num_pages).map (fun k => get_page_url cfg (k + 1))
  let all_links :=
    scrapeCandidates cfg fetchList eb ch le lf parse bfl num_pages dateStrFull
  let unique_links := dedupLinks all_links []
  let filtered := filter_existing_links dbOk stored unique_links
  let limited := filtered.take max_articles
  let articles := limited.map (fun tl =>
    let info := extract_article_info llmInfo
      (String.mk ((fetchArticle tl.2).data.take 2000))
    (⟨some tl.1, none, some info.1, none, some info.2, none,
      some dateStrFull, none, some tl.2, none⟩ : RawArticle))
  (articles,
   pageUrls.map RunEvent.listFetch
     ++ limited.map (fun tl => RunEvent.detailFetch tl.2))

/-! ### END OF DEFINITIONS; theorems follow -/

theorem toBatches_flatten {α : Type} (bs : Nat) (l : List α) (hbs : 0 < bs) :
    (toBatches bs l).flatten = l := by
  rw [toBatches]
  split
  · rename_i h
    rcases h with h | h
    · omega
    · simp [List.length_eq_zero.mp h]
  · have ih := toBatches_flatten bs (l.drop bs) hbs
    simp [ih]
  termination_by l.length
  decreasing_by simp only [List.length_drop]; omega

theorem toBatches_length_le {α : Type} (bs : Nat) (l : List α) :
    ∀ b ∈ toBatches bs l, b.length ≤ bs := by
  intro b hb
  rw [toBatches] at hb
  by_cases h : bs = 0 ∨ l.length = 0
  · rw [dif_pos h] at hb
    simp at hb
  · rw [dif_neg h] at hb
    rcases List.mem_cons.mp hb with hb | hb
    · subst hb
      simp [List.length_take]
    · exact toBatches_length_le bs (l.drop bs) b hb
  termination_by l.length
  decreasing_by simp only [List.length_drop]; omega

theorem foldl_append_map {α β : Type} (f : List α → List β)
    (bs : List (List α)) (init : List β) :
    bs.foldl (fun acc b => acc ++ f b) init = init ++ (bs.map f).flatten := by
  induction bs generalizing init with
  | nil => simp
  | cons b bs ih => simp [ih, List.append_assoc]

theorem mem_toBatches_iff {α : Type} (bs : Nat) (hbs : 0 < bs) (l : List α) (x : α) :
    (∃ b ∈ toBatches bs l, x ∈ b) ↔ x ∈ l := by
  conv_rhs => rw [← toBatches_flatten bs l hbs]
  exact (List.mem_flatten).symm

theorem mem_existing_urls_iff (stored : List String)
    (links : List (String × String)) (u : String) :
    (u ∈ (toBatches 100 links).foldl
        (fun acc batch =>
          acc ++ (batch.map Prod.snd).filter (fun v => decide (v ∈ stored))) [])
      ↔ (u ∈ links.map Prod.snd ∧ u ∈ stored) := by
  rw [foldl_append_map]
  simp only [List.nil_append, List.mem_flatten, List.mem_map]
  constructor
  · rintro ⟨fb, ⟨b, hb, rfl⟩, hu⟩
    rw [List.mem_filter] at hu
    obtain ⟨hu1, hu2⟩ := hu
    refine ⟨?_, of_decide_eq_true hu2⟩
    rw [List.mem_map] at hu1
    obtain ⟨tl, htl, rfl⟩ := hu1
    have : tl ∈ links := (mem_toBatches_iff 100 (by norm_num) links tl).mp ⟨b, hb, htl⟩
    exact ⟨tl, this, rfl⟩
  · rintro ⟨⟨tl, htl, rfl⟩, hst⟩
    obtain ⟨b, hb, hbtl⟩ := (mem_toBatches_iff 100 (by norm_num) links tl).mpr htl
    refine ⟨(b.map Prod.snd).filter (fun v => decide (v ∈ stored)), ⟨b, hb, rfl⟩, ?_⟩
    rw [List.mem_filter]
    exact ⟨List.mem_map_of_mem Prod.snd hbtl, decide_eq_true hst⟩

/-- C4: for a non-empty candidate list, a successful storage lookup returns
exactly the input `(title, link)` pairs whose link is not a stored
`source_url`, in input order, with lookups batched in slices of 100 that
cover the input; any storage failure yields `[]` (fail closed). -/
theorem filter_existing_links_spec (stored : List String)
    (links : List (String × String)) (hne : links ≠ []) :
    filter_existing_links true stored links
        = links.filter (fun tl => decide (tl.2 ∉ stored))
    ∧ (∀ b ∈ toBatches 100 links, b.length ≤ 100)
    ∧ (toBatches 100 links).flatten = links
    ∧ filter_existing_links false stored links = [] := by
  refine ⟨?_, toBatches_length_le 100 links,
    toBatches_flatten 100 links (by norm_num), ?_⟩
  · unfold filter_existing_links
    rw [if_neg hne]
    simp only [if_pos rfl, if_true]
    apply List.filter_congr
    intro tl htl
    apply decide_eq_decide.mpr
    rw [mem_existing_urls_iff stored links tl.2]
    have : tl.2 ∈ links.map Prod.snd := List.mem_map_of_mem Prod.snd htl
    tauto
  · unfold filter_existing_links
    rw [if_neg hne]
    simp

theorem filter_existing_links_spec_witness :
    filter_existing_links true ["urlB"] [("t1", "urlA"), ("t2", "urlB")]
        = [("t1", "urlA")]
    ∧ filter_existing_links false ["urlB"] [("t1", "urlA"), ("t2", "urlB")] = [] := by
  have h := filter_existing_links_spec ["urlB"] [("t1", "urlA"), ("t2", "urlB")]
    (by decide)
  refine ⟨?_, h.2.2.2⟩
  rw [h.1]
  decide

theorem processArticle_len (parseDate : String → Option PDate) (site : String)
    (acc : List DBRow × Nat) (a : RawArticle) :
    (processArticle parseDate site acc a).1.length
      + (processArticle parseDate site acc a).2
      = acc.1.length + acc.2 + 1 := by
  unfold processArticle
  dsimp only
  split
  · simp
    omega
  · split
    · simp
      omega
    · simp [List.length_append]
      omega

theorem validOf_foldl_len (parseDate : String → Option PDate) (site : String)
    (articles : List RawArticle) (acc : List DBRow × Nat) :
    (articles.foldl (processArticle parseDate site) acc).1.length
      + (articles.foldl (processArticle parseDate site) acc).2
      = acc.1.length + acc.2 + articles.length := by
  induction articles generalizing acc with
  | nil => simp
  | cons a rest ih =>
    rw [List.foldl_cons, ih]
    have := processArticle_len parseDate site acc a
    simp only [List.length_cons]
    omega

theorem validOf_len (parseDate : String → Option PDate) (site : String)
    (articles : List RawArticle) :
    (validOf parseDate site articles).1.length
      + (validOf parseDate site articles).2 = articles.length := by
  have := validOf_foldl_len parseDate site articles ([], 0)
  simpa [validOf] using this

/-- C10: the statistics dictionary always has `updated = 0` and `skipped = 0`
(the function only ever inserts or fails), and whenever the input carries an
`articles` list, `inserted + failed = total` and `total` is its length. -/
theorem save_stats_invariant (parseDate : String → Option PDate)
    (dbErr : Bool) (db : List DBRow) (res : Option (List RawArticle))
    (site : String) :
    (save_scraper_results_to_db parseDate dbErr db res site).1.updated = 0
    ∧ (save_scraper_results_to_db parseDate dbErr db res site).1.skipped = 0
    ∧ ∀ articles, res = some articles →
        (save_scraper_results_to_db parseDate dbErr db res site).1.inserted
            + (save_scraper_results_to_db parseDate dbErr db res site).1.failed
          = (save_scraper_results_to_db parseDate dbErr db res site).1.total
        ∧ (save_scraper_results_to_db parseDate dbErr db res site).1.total
          = articles.length := by
  cases res with
  | none =>
    refine ⟨rfl, rfl, ?_⟩
    intro l hl
    cases hl
  | some articles =>
    have hv := validOf_len parseDate site articles
    unfold save_scraper_results_to_db
    dsimp only
    by_cases he : articles = []
    · subst he
      rw [if_pos rfl]
      refine ⟨rfl, rfl, ?_⟩
      intro l hl
      injection hl with hl
      subst hl
      exact ⟨rfl, rfl⟩
    · rw [if_neg he]
      by_cases h1 : (validOf parseDate site articles).1 = []
      · rw [if_pos h1]
        refine ⟨rfl, rfl, ?_⟩
        intro l hl
        injection hl with hl
        subst hl
        refine ⟨?_, rfl⟩
        rw [h1] at hv
        simpa using hv
      · rw [if_neg h1]
        by_cases h2 : hasIntegrityViolation db (validOf parseDate site articles).1
        · rw [if_pos h2]
          refine ⟨rfl, rfl, ?_⟩
          intro l hl
          injection hl with hl
          subst hl
          exact ⟨by dsimp only; omega, rfl⟩
        · rw [if_neg h2]
          cases dbErr with
          | true =>
            rw [if_pos rfl]
            refine ⟨rfl, rfl, ?_⟩
            intro l hl
            injection hl with hl
            subst hl
            exact ⟨by dsimp only; omega, rfl⟩
          | false =>
            rw [if_neg (by simp)]
            refine ⟨rfl, rfl, ?_⟩
            intro l hl
            injection hl with hl
            subst hl
            exact ⟨by dsimp only; omega, rfl⟩

theorem save_stats_invariant_witness :
    ((save_scraper_results_to_db (fun _ => some ⟨2026, 1, 5⟩) false []
        (some [⟨some "t", none, none, none, none, none, some "2026/01/05", none,
               some "http://x/1", none⟩]) "TVBS").1.inserted
      + (save_scraper_results_to_db (fun _ => some ⟨2026, 1, 5⟩) false []
        (some [⟨some "t", none, none, none, none, none, some "2026/01/05", none,
               some "http://x/1", none⟩]) "TVBS").1.failed
      = (save_scraper_results_to_db (fun _ => some ⟨2026, 1, 5⟩) false []
        (some [⟨some "t", none, none, none, none, none, some "2026/01/05", none,
               some "http://x/1", none⟩]) "TVBS").1.total)
    ∧ (save_scraper_results_to_db (fun _ => some ⟨2026, 1, 5⟩) false []
        (some [⟨some "t", none, none, none, none, none, some "2026/01/05", none,
               some "http://x/1", none⟩]) "TVBS").1.updated = 0 := by
  have h := save_stats_invariant (fun _ => some ⟨2026, 1, 5⟩) false []
    (some [⟨some "t", none, none, none, none, none, some "2026/01/05", none,
           some "http://x/1", none⟩]) "TVBS"
  exact ⟨(h.2.2 _ rfl).1, h.1⟩

/-- C2: persisting a batch containing a `source_url` already in storage never
produces a second row with that URL: the uniqueness invariant on the stored
rows is preserved, the integrity violation is caught, the transaction is
rolled back (the table is unchanged), the affected records are counted in the
failed statistics (the whole batch fails), and the function returns the
statistics dict normally instead of raising. -/
theorem save_duplicate_url_safe (parseDate : String → Option PDate)
    (dbErr : Bool) (db : List DBRow) (res : Option (List RawArticle))
    (site : String)
    (hdb : ((db.map (fun r => r.source_url)).Nodup)) :
    (((save_scraper_results_to_db parseDate dbErr db res site).2).map
        (fun r => r.source_url)).Nodup
    ∧ ∀ articles, res = some articles →
        (∃ r ∈ (validOf parseDate site articles).1,
            ∃ q ∈ db, q.source_url = r.source_url) →
          (save_scraper_results_to_db parseDate dbErr db res site).2 = db
          ∧ (save_scraper_results_to_db parseDate dbErr db res site).1.inserted
              = 0
          ∧ (save_scraper_results_to_db parseDate dbErr db res site).1.failed
              = (save_scraper_results_to_db parseDate dbErr db res site).1.total := by
  cases res with
  | none =>
    refine ⟨hdb, ?_⟩
    intro l hl
    cases hl
  | some articles =>
    have hv := validOf_len parseDate site articles
    unfold save_scraper_results_to_db
    dsimp only
    by_cases he : articles = []
    · subst he
      rw [if_pos rfl]
      refine ⟨hdb, ?_⟩
      intro l hl hdup
      exact ⟨rfl, rfl, rfl⟩
    · rw [if_neg he]
      by_cases h1 : (validOf parseDate site articles).1 = []
      · rw [if_pos h1]
        refine ⟨hdb, ?_⟩
        intro l hl hdup
        injection hl with hl
        subst hl
        refine ⟨rfl, rfl, ?_⟩
        show (validOf parseDate site articles).2 = articles.length
        rw [h1] at hv
        simpa using hv
      · rw [if_neg h1]
        by_cases h2 : hasIntegrityViolation db (validOf parseDate site articles).1
        · rw [if_pos h2]
          refine ⟨hdb, ?_⟩
          intro l hl hdup
          injection hl with hl
          subst hl
          exact ⟨rfl, rfl, by dsimp only; omega⟩
        · rw [if_neg h2]
          -- no integrity violation: the inserted URLs are fresh and pairwise
          -- distinct, so uniqueness is preserved; and no duplicate can exist.
          have hnov : ∀ r ∈ (validOf parseDate site articles).1,
              ∀ q ∈ db, ¬(q.source_url = r.source_url) := by
            intro r hr q hq hEq
            apply h2
            unfold hasIntegrityViolation
            apply Bool.or_eq_true_iff.mpr
            left
            rw [List.any_eq_true]
            exact ⟨r, hr, List.any_eq_true.mpr ⟨q, hq, beq_iff_eq.mpr hEq⟩⟩
          have hnodup : ((validOf parseDate site articles).1.map
              (fun r => r.source_url)).Nodup := by
            by_contra hcon
            apply h2
            unfold hasIntegrityViolation
            apply Bool.or_eq_true_iff.mpr
            right
            simpa using hcon
          have hmain : ((db ++ (validOf parseDate site articles).1).map
              (fun r => r.source_url)).Nodup := by
            rw [List.map_append, List.nodup_append]
            refine ⟨hdb, hnodup, ?_⟩
            intro u hu1 hu2
            rw [List.mem_map] at hu1 hu2
            obtain ⟨q, hq, rfl⟩ := hu1
            obtain ⟨r, hr, hEq⟩ := hu2
            exact hnov r hr q hq hEq.symm
          cases dbErr with
          | true =>
            rw [if_pos rfl]
            refine ⟨hdb, ?_⟩
            intro l hl hdup
            injection hl with hl
            subst hl
            exact ⟨rfl, rfl, by dsimp only; omega⟩
          | false =>
            rw [if_neg (by simp)]
            refine ⟨hmain, ?_⟩
            intro l hl hdup
            injection hl with hl
            subst hl
            exfalso
            obtain ⟨r, hr, q, hq, hEq⟩ := hdup
            exact hnov r hr q hq hEq

theorem save_duplicate_url_safe_witness :
    (save_scraper_results_to_db (fun _ => some ⟨2026, 1, 5⟩) false
        [⟨"old", none, none, ⟨2026, 1, 4⟩, "http://x/1", "TVBS"⟩]
        (some [⟨some "t", none, none, none, none, none, some "2026/01/05", none,
               some "http://x/1", none⟩]) "TVBS").2
      = [⟨"old", none, none, ⟨2026, 1, 4⟩, "http://x/1", "TVBS"⟩]
    ∧ (save_scraper_results_to_db (fun _ => some ⟨2026, 1, 5⟩) false
        [⟨"old", none, none, ⟨2026, 1, 4⟩, "http://x/1", "TVBS"⟩]
        (some [⟨some "t", none, none, none, none, none, some "2026/01/05", none,
               some "http://x/1", none⟩]) "TVBS").1.inserted = 0 := by
  have h := save_duplicate_url_safe (fun _ => some ⟨2026, 1, 5⟩) false
    [⟨"old", none, none, ⟨2026, 1, 4⟩, "http://x/1", "TVBS"⟩]
    (some [⟨some "t", none, none, none, none, none, some "2026/01/05", none,
           some "http://x/1", none⟩]) "TVBS" (by decide)
  have h2 := h.2 _ rfl (by decide)
  exact ⟨h2.1, h2.2.1⟩

/-- Every branch of `extract_news_links` other than a successful parse-and-
process returns the empty link list. -/
theorem extract_links_empty_or_parsed (eb : String → Option String)
    (ch : String → CleanOut) (le : String → String → Option String)
    (lf : String → Option String) (parse : String → Option Json)
    (bfl : String → String) (c d : String) :
    (extract_news_links eb ch le lf parse bfl c d).links = []
    ∨ ∃ tier, (extract_news_links eb ch le lf parse bfl c d).outcome
        = ExtractOutcome.parsed tier := by
  unfold extract_news_links
  cases heb : eb c with
  | none => left; rfl
  | some blk =>
    dsimp only
    by_cases hb : blk = ""
    · rw [if_pos hb]
      left; rfl
    · rw [if_neg hb]
      by_cases hl : (pyStrip (combineClean (ch blk))).length < 100
      · rw [if_pos hl]
        left; rfl
      · rw [if_neg hl]
        cases hle : le (dateShortOf d)
            (String.mk ((combineClean (ch blk)).data.take 8000)) with
        | none => left; rfl
        | some resp =>
          dsimp only
          rcases hpc : parseChain parse lf (cleanResponse resp) with ⟨jo, fc⟩
          cases jo with
          | none => left; rfl
          | some jt =>
            rcases jt with ⟨j, tier⟩
            dsimp only
            cases hpi : processItems bfl j with
            | none => left; rfl
            | some links =>
              right
              exact ⟨tier, rfl⟩

/-- C1: when the cleaned extraction response fails to parse as JSON,
`extract_news_links` first issues the `fix_json_response` model call, whose
output is re-cleaned and re-parsed once and used when valid; if the repair
fails, the response text is truncated at the last complete `},` boundary and
the array closed; with no such boundary, the first complete object is
wrapped alone in an array; and when every tier fails the call returns the
empty list instead of raising. -/
theorem extract_repair_protocol (parse : String → Option Json)
    (llmFix : String → Option String) (cleaned : String)
    (hfail : parse cleaned = none) :
    (parseChain parse llmFix cleaned).2 = true
    ∧ (∀ r, llmFix cleaned = some r → parse (cleanResponse r) ≠ none →
        (parseChain parse llmFix cleaned).1
          = (parse (cleanResponse r)).map (fun j => (j, ParseTier.repaired)))
    ∧ (fix_json_response parse llmFix cleaned = none →
        (parseChain parse llmFix cleaned).1 = manualRepair parse cleaned)
    ∧ (pyRfind cleaned "\x7d," > 0 →
        manualRepair parse cleaned
          = (parse (pySlice cleaned 0 (pyRfind cleaned "\x7d," + 1) ++ "]")).map
              (fun j => (j, ParseTier.truncated)))
    ∧ (¬pyRfind cleaned "\x7d," > 0 → pyFind cleaned "\x7d" > 0 →
        manualRepair parse cleaned
          = (parse ("[" ++ pySlice cleaned (pyFind cleaned "\x7b")
              (pyFind cleaned "\x7d" + 1) ++ "]")).map
              (fun j => (j, ParseTier.wrappedFirst)))
    ∧ (∀ eb ch le bfl c d,
        (extract_news_links eb ch le llmFix parse bfl c d).outcome
            = ExtractOutcome.parseGaveUp →
        (extract_news_links eb ch le llmFix parse bfl c d).links = []) := by
  refine ⟨?_, ?_, ?_, ?_, ?_, ?_⟩
  · unfold parseChain
    rw [hfail]
    dsimp only
    cases hfix : fix_json_response parse llmFix cleaned with
    | none => rfl
    | some t =>
      dsimp only
      cases parse t <;> rfl
  · intro r hr hne
    cases hp : parse (cleanResponse r) with
    | none => exact absurd hp hne
    | some j =>
      have hfix : fix_json_response parse llmFix cleaned
          = some (cleanResponse r) := by
        unfold fix_json_response
        rw [hr]
        dsimp only
        rw [hp]
      unfold parseChain
      rw [hfail]
      dsimp only
      rw [hfix]
      dsimp only
      rw [hp]
      rfl
  · intro h
    unfold parseChain
    rw [hfail, h]
  · intro h
    unfold manualRepair
    rw [if_pos h]
    cases parse (pySlice cleaned 0 (pyRfind cleaned "\x7d," + 1) ++ "]") <;> rfl
  · intro h1 h2
    unfold manualRepair
    rw [if_neg h1]
    dsimp only
    rw [if_pos h2]
    cases parse ("[" ++ pySlice cleaned (pyFind cleaned "\x7b")
        (pyFind cleaned "\x7d" + 1) ++ "]") <;> rfl
  · intro eb ch le bfl c d h
    rcases extract_links_empty_or_parsed eb ch le llmFix parse bfl c d with
      he | ⟨tier, ht⟩
    · exact he
    · rw [h] at ht
      exact ExtractOutcome.noConfusion ht

theorem extract_repair_protocol_witness :
    (parseChain
        (fun s => if s = "[\x7b\x7d]" then some (Json.arr [Json.obj []]) else none)
        (fun _ => none) "[\x7b\x7d,x").2 = true
    ∧ (parseChain
        (fun s => if s = "[\x7b\x7d]" then some (Json.arr [Json.obj []]) else none)
        (fun _ => none) "[\x7b\x7d,x").1
      = some (Json.arr [Json.obj []], ParseTier.truncated) := by
  have h := extract_repair_protocol
    (fun s => if s = "[\x7b\x7d]" then some (Json.arr [Json.obj []]) else none)
    (fun _ => none) "[\x7b\x7d,x" (by rfl)
  refine ⟨h.1, ?_⟩
  have h3 := h.2.2.1 (by rfl)
  have h4 := h.2.2.2.1 (by decide)
  rw [h3, h4]
  rfl

/-- C5 counterexample: the model reply `[1]` parses as JSON but does not have
the required shape (its item is not an object), yet the repair sub-protocol
is NOT invoked — even with a repair oracle that would return valid JSON —
and the run ends in the generic handler with zero links.  This contradicts
"validation failure is handled identically to a parse failure": a parse
failure always sets `fixCalled = true` (see the C1 theorem). -/
theorem extract_no_shape_validation_counterexample :
    extract_news_links (fun c => some c)
      (fun _ => CleanOut.plain (String.mk (List.replicate 100 'a')))
      (fun _ _ => some "[1]")
      (fun _ => some "[]")
      (fun s => if s = "[1]" then some (Json.arr [Json.num 1])
                else if s = "[]" then some (Json.arr []) else none)
      (fun l => l) "page" "2026/01/05"
    = ⟨[], ExtractOutcome.itemError, false,
        some (String.mk (List.replicate 100 'a'))⟩ := by
  rfl

/-- C5 (amended): `extract_news_links` performs no shape validation after a
successful JSON parse: a parsed response is handed to the item loop without
ever invoking the repair sub-protocol regardless of its shape, and a shape
failure raised in the item loop is caught by the generic handler so the page
yields zero links. -/
theorem extract_shape_failure_handling (parse : String → Option Json) :
    (∀ lf cleaned j, parse cleaned = some j →
        parseChain parse lf cleaned = (some (j, ParseTier.direct), false))
    ∧ (∀ eb ch le lf bfl c d,
        (extract_news_links eb ch le lf parse bfl c d).outcome
            = ExtractOutcome.itemError →
        (extract_news_links eb ch le lf parse bfl c d).links = []) := by
  constructor
  · intro lf cleaned j h
    unfold parseChain
    rw [h]
  · intro eb ch le lf bfl c d h
    rcases extract_links_empty_or_parsed eb ch le lf parse bfl c d with
      he | ⟨tier, ht⟩
    · exact he
    · rw [h] at ht
      exact ExtractOutcome.noConfusion ht

theorem extract_shape_failure_handling_witness :
    parseChain (fun s => if s = "x" then some Json.null else none)
      (fun _ => none) "x"
    = (some (Json.null, ParseTier.direct), false) := by
  exact (extract_shape_failure_handling
    (fun s => if s = "x" then some Json.null else none)).1
    (fun _ => none) "x" Json.null rfl

/-- C8: whenever `extract_news_links` reaches the model call, the content
embedded in the query is exactly the cleaned-and-combined text (plain text
plus appended anchor inventory) truncated to 8000 characters: its length is
at most 8000 and it is a character-level prefix of the cleaned output —
truncation is applied after cleaning, never to the raw markup. -/
theorem extract_content_truncation
    (eb : String → Option String) (ch : String → CleanOut)
    (le : String → String → Option String) (lf : String → Option String)
    (parse : String → Option Json) (bfl : String → String)
    (c d s : String)
    (h : (extract_news_links eb ch le lf parse bfl c d).sentContent = some s) :
    ∃ blk, eb c = some blk ∧ blk ≠ ""
      ∧ s = String.mk ((combineClean (ch blk)).data.take 8000)
      ∧ s.length ≤ 8000
      ∧ (combineClean (ch blk)).data
          = s.data ++ (combineClean (ch blk)).data.drop 8000 := by
  unfold extract_news_links at h
  cases heb : eb c with
  | none =>
    rw [heb] at h
    dsimp only at h
    exact Option.noConfusion h
  | some blk =>
    rw [heb] at h
    dsimp only at h
    by_cases hb : blk = ""
    · rw [if_pos hb] at h
      dsimp only at h
      exact Option.noConfusion h
    · rw [if_neg hb] at h
      by_cases hl : (pyStrip (combineClean (ch blk))).length < 100
      · rw [if_pos hl] at h
        dsimp only at h
        exact Option.noConfusion h
      · rw [if_neg hl] at h
        have hlen : (String.mk ((combineClean (ch blk)).data.take 8000)).length
            ≤ 8000 := by
          show ((combineClean (ch blk)).data.take 8000).length ≤ 8000
          rw [List.length_take]
          omega
        have hpre : (combineClean (ch blk)).data
            = (String.mk ((combineClean (ch blk)).data.take 8000)).data
              ++ (combineClean (ch blk)).data.drop 8000 :=
          (List.take_append_drop 8000 _).symm
        cases hle : le (dateShortOf d)
            (String.mk ((combineClean (ch blk)).data.take 8000)) with
        | none =>
          rw [hle] at h
          dsimp only at h
          injection h with h
          exact ⟨blk, rfl, hb, h.symm, h ▸ hlen, h ▸ hpre⟩
        | some resp =>
          rw [hle] at h
          dsimp only at h
          rcases hpc : parseChain parse lf (cleanResponse resp) with ⟨jo, fc⟩
          rw [hpc] at h
          cases jo with
          | none =>
            dsimp only at h
            injection h with h
            exact ⟨blk, rfl, hb, h.symm, h ▸ hlen, h ▸ hpre⟩
          | some jt =>
            rcases jt with ⟨j, tier⟩
            dsimp only at h
            cases hpi : processItems bfl j with
            | none =>
              rw [hpi] at h
              dsimp only at h
              injection h with h
              exact ⟨blk, rfl, hb, h.symm, h ▸ hlen, h ▸ hpre⟩
            | some links =>
              rw [hpi] at h
              dsimp only at h
              injection h with h
              exact ⟨blk, rfl, hb, h.symm, h ▸ hlen, h ▸ hpre⟩

theorem extract_content_truncation_witness :
    (extract_news_links (fun c => some c)
      (fun _ => CleanOut.plain (String.mk (List.replicate 100 'a')))
      (fun _ _ => none) (fun _ => none) (fun _ => none) (fun l => l)
      "page" "2026/01/05").sentContent
      = some (String.mk (List.replicate 100 'a'))
    ∧ (String.mk (List.replicate 100 'a')).length ≤ 8000 := by
  have h := extract_content_truncation (fun c => some c)
    (fun _ => CleanOut.plain (String.mk (List.replicate 100 'a')))
    (fun _ _ => none) (fun _ => none) (fun _ => none) (fun l => l)
    "page" "2026/01/05" (String.mk (List.replicate 100 'a')) (by rfl)
  obtain ⟨blk, _, _, _, hlen, _⟩ := h
  exact ⟨by rfl, hlen⟩

theorem foldl_addStats_failed {α : Type} (rs : List (α × EmbStats))
    (z : EmbStats) (h : ∀ r ∈ rs, r.2.failed = 0) :
    (rs.foldl (fun acc r => addStats acc r.2) z).failed = z.failed := by
  induction rs generalizing z with
  | nil => rfl
  | cons r rs ih =>
    rw [List.foldl_cons,
      ih _ (fun r' hr' => h r' (List.mem_cons_of_mem _ hr'))]
    have hr := h r (List.mem_cons_self _ _)
    simp [addStats, hr]

theorem writeSummary_nil {Emb : Type} (sIdx : List Nat)
    (a : EmbArticle Emb) (idx : Nat) :
    writeSummary sIdx ([] : List Emb) a idx = (a, 0) := by
  unfold writeSummary
  split
  · rw [dif_neg (by simp)]
  · rfl

theorem writeTitle_summary_embedding {Emb : Type} (tIdx : List Nat)
    (tEmbs : List Emb) (p : Nat × EmbArticle Emb) :
    ((writeTitle tIdx tEmbs p).1).summary_embedding = p.2.summary_embedding := by
  unfold writeTitle
  split
  · dsimp only
    split <;> rfl
  · rfl

theorem writeTitle_written {Emb : Type} (tIdx : List Nat) (tEmbs : List Emb)
    (p : Nat × EmbArticle Emb) (hmem : p.1 ∈ tIdx)
    (hlt : tIdx.indexOf p.1 < tEmbs.length) :
    ((writeTitle tIdx tEmbs p).1).title_embedding
      = tEmbs.get? (tIdx.indexOf p.1) := by
  unfold writeTitle
  have hc : tIdx.contains p.1 = true := by simpa using hmem
  rw [if_pos hc]
  dsimp only
  rw [dif_pos hlt]
  dsimp only
  rw [List.get?_eq_get hlt]

theorem updateOne_failed {Emb : Type} (tIdx sIdx : List Nat)
    (tEmbs sEmbs : List Emb) (commitOk : Nat → Bool)
    (p : Nat × EmbArticle Emb) (hc : commitOk p.1 = true) :
    (updateOne tIdx sIdx tEmbs sEmbs commitOk p).2.failed = 0 := by
  unfold updateOne
  dsimp only
  split <;> simp_all

theorem updateOne_nil_summaries {Emb : Type} (tIdx sIdx : List Nat)
    (tEmbs : List Emb) (commitOk : Nat → Bool) (p : Nat × EmbArticle Emb)
    (hc : commitOk p.1 = true) :
    (updateOne tIdx sIdx tEmbs ([] : List Emb) commitOk p).1
      = (writeTitle tIdx tEmbs p).1 := by
  unfold updateOne
  dsimp only
  rw [writeSummary_nil]
  dsimp only
  split <;> simp_all

theorem mem_title_indices {Emb : Type} (force : Bool)
    (batch : List (EmbArticle Emb)) (p : Nat × EmbArticle Emb)
    (hp : p ∈ batch.enum) (hn : needsTitle force p.2 = true) :
    p.1 ∈ title_indices force batch := by
  unfold title_indices
  exact List.mem_map_of_mem Prod.fst (List.mem_filter.mpr ⟨hp, hn⟩)

theorem title_indices_length_eq {Emb : Type} (force : Bool)
    (batch : List (EmbArticle Emb)) :
    (title_indices force batch).length = (titlesOf force batch).length := by
  simp [title_indices, titlesOf]

/-- C3 counterexample: one record needing both vectors, a successful title
call, a failed synopsis call, and a successful per-record commit: the title
vector is written, the synopsis is untouched, but the batch `failed` counter
is 0 — not 1 per record whose synopsis vector could not be generated, as the
claim states (the embedding-service failure is only logged). -/
theorem generate_embeddings_failed_counter_counterexample :
    (@generate_embeddings_batch Nat false
        (fun l => some (l.map (fun _ => 7))) (fun _ => none) (fun _ => true)
        [⟨"t", "s", none, none⟩]).2.failed = 0
    ∧ (summary_indices false [(⟨"t", "s", none, none⟩ : EmbArticle Nat)]).length
        = 1
    ∧ (@generate_embeddings_batch Nat false
        (fun l => some (l.map (fun _ => 7))) (fun _ => none) (fun _ => true)
        [⟨"t", "s", none, none⟩]).1 = [⟨"t", "s", some 7, none⟩] := by
  refine ⟨rfl, rfl, rfl⟩

/-- C3 (amended): in a batch where the title embedding call succeeds (one
vector per collected title), the synopsis embedding call fails, and every
per-record commit succeeds, each record with a truthy title that needed a
title vector has it written (the vector at its tracked position), every
record's synopsis embedding is left untouched, and the batch adds nothing to
the `failed` counter — embedding-service failures are only logged; `failed`
counts per-record storage write failures only. -/
theorem generate_embeddings_partial_success {Emb : Type} (force : Bool)
    (genT genS : List String → Option (List Emb)) (commitOk : Nat → Bool)
    (batch : List (EmbArticle Emb)) (es : List Emb)
    (hT : genT (titlesOf force batch) = some es)
    (hlen : es.length = (titlesOf force batch).length)
    (hS : genS (summariesOf force batch) = none)
    (hC : ∀ i, commitOk i = true) :
    (generate_embeddings_batch force genT genS commitOk batch).2.failed = 0
    ∧ (generate_embeddings_batch force genT genS commitOk batch).1
        = batch.enum.map (fun p =>
            (updateOne (title_indices force batch) (summary_indices force batch)
              es [] commitOk p).1)
    ∧ ∀ p ∈ batch.enum,
        ((updateOne (title_indices force batch) (summary_indices force batch)
            es [] commitOk p).1).summary_embedding = p.2.summary_embedding
        ∧ (needsTitle force p.2 = true →
            (title_indices force batch).indexOf p.1 < es.length
            ∧ ((updateOne (title_indices force batch)
                  (summary_indices force batch) es [] commitOk p).1).title_embedding
              = es.get? ((title_indices force batch).indexOf p.1)) := by
  have hTe : (if (titlesOf force batch).isEmpty then []
      else (genT (titlesOf force batch)).getD []) = es := by
    by_cases h : (titlesOf force batch).isEmpty
    · rw [if_pos h]
      rw [List.isEmpty_iff] at h
      symm
      rw [← List.length_eq_zero, hlen, h]
      rfl
    · rw [if_neg h, hT]
      rfl
  have hSe : (if (summariesOf force batch).isEmpty then []
      else (genS (summariesOf force batch)).getD []) = ([] : List Emb) := by
    by_cases h : (summariesOf force batch).isEmpty
    · rw [if_pos h]
    · rw [if_neg h, hS]
      rfl
  unfold generate_embeddings_batch
  dsimp only
  rw [hTe, hSe]
  refine ⟨?_, ?_, ?_⟩
  · unfold updateLoop
    dsimp only
    apply foldl_addStats_failed
    intro r hr
    rw [List.mem_map] at hr
    obtain ⟨p, hp, rfl⟩ := hr
    exact updateOne_failed _ _ _ _ _ p (hC p.1)
  · unfold updateLoop
    dsimp only
    rw [List.map_map]
    rfl
  · intro p hp
    have hres := updateOne_nil_summaries (title_indices force batch)
      (summary_indices force batch) es commitOk p (hC p.1)
    constructor
    · rw [hres]
      exact writeTitle_summary_embedding _ _ p
    · intro hn
      have hmem := mem_title_indices force batch p hp hn
      have hlt : (title_indices force batch).indexOf p.1 < es.length := by
        rw [hlen, ← title_indices_length_eq]
        exact List.indexOf_lt_length.mpr hmem
      exact ⟨hlt, by rw [hres]; exact writeTitle_written _ _ p hmem hlt⟩

theorem generate_embeddings_partial_success_witness :
    (@generate_embeddings_batch Nat false
        (fun l => some (l.map (fun _ => 7))) (fun _ => none) (fun _ => true)
        [⟨"t", "s", none, none⟩]).2.failed = 0 := by
  exact (@generate_embeddings_partial_success Nat false
    (fun l => some (l.map (fun _ => 7))) (fun _ => none) (fun _ => true)
    [⟨"t", "s", none, none⟩] [7] rfl rfl rfl (fun _ => rfl)).1

theorem group2At_bounds (cs g : List Char) (h : group2At cs = some g) :
    2 ≤ g.length ∧ g.length ≤ 5 := by
  unfold group2At at h
  dsimp only at h
  by_cases h2 : 2 ≤ ((cs.takeWhile isNameChar).take 5).length
  · rw [if_pos h2] at h
    injection h with h
    subst h
    refine ⟨h2, ?_⟩
    rw [List.length_take]
    omega
  · rw [if_neg h2] at h
    cases h

theorem tryWordAlt_bounds (w : String) (cs g : List Char)
    (h : tryWordAlt w cs = some g) : 2 ≤ g.length ∧ g.length ≤ 5 := by
  unfold tryWordAlt at h
  split at h
  · exact group2At_bounds _ _ h
  · cases h

theorem tryReporterAlt_bounds (cs g : List Char)
    (h : tryReporterAlt cs = some g) : 2 ≤ g.length ∧ g.length ≤ 5 := by
  unfold tryReporterAlt at h
  split at h
  · exact group2At_bounds _ _ h
  · cases h

theorem secondaryAttempt_bounds (cs g : List Char)
    (h : secondaryAttempt cs = some g) : 2 ≤ g.length ∧ g.length ≤ 5 := by
  unfold secondaryAttempt at h
  cases h1 : tryWordAlt "政治中心" cs with
  | some g1 =>
    rw [h1] at h
    injection h with h
    subst h
    exact tryWordAlt_bounds _ _ _ h1
  | none =>
    rw [h1] at h
    dsimp only at h
    cases h2 : tryWordAlt "國際中心" cs with
    | some g1 =>
      rw [h2] at h
      injection h with h
      subst h
      exact tryWordAlt_bounds _ _ _ h2
    | none =>
      rw [h2] at h
      dsimp only at h
      cases h3 : tryWordAlt "生活中心" cs with
      | some g1 =>
        rw [h3] at h
        injection h with h
        subst h
        exact tryWordAlt_bounds _ _ _ h3
      | none =>
        rw [h3] at h
        dsimp only at h
        cases h4 : tryWordAlt "社會中心" cs with
        | some g1 =>
          rw [h4] at h
          injection h with h
          subst h
          exact tryWordAlt_bounds _ _ _ h4
        | none =>
          rw [h4] at h
          dsimp only at h
          cases h5 : tryReporterAlt cs with
          | some g1 =>
            rw [h5] at h
            injection h with h
            subst h
            exact tryReporterAlt_bounds _ _ h5
          | none =>
            rw [h5] at h
            dsimp only at h
            exact group2At_bounds _ _ h

theorem secondarySearch_bounds : ∀ cs g,
    secondarySearch cs = some g → 2 ≤ g.length ∧ g.length ≤ 5 := by
  intro cs
  induction cs with
  | nil =>
    intro g h
    exact Option.noConfusion h
  | cons c rest ih =>
    intro g h
    unfold secondarySearch at h
    cases ha : secondaryAttempt (c :: rest) with
    | some g1 =>
      rw [ha] at h
      injection h with h
      subst h
      exact secondaryAttempt_bounds _ _ ha
    | none =>
      rw [ha] at h
      dsimp only at h
      exact ih g h

/-- C9: in `extract_article_info`, a model-invocation error of any kind
degrades to the `("未提及", "")` pair; and whenever the raw captured byline
(stripped) exceeds 20 characters, the returned byline is either the
`未提及` sentinel or the secondary pattern's short name-like token of 2-5
characters. -/
theorem extract_article_info_spec (llm : String → Option String)
    (content : String) :
    (llm (String.mk (content.data.take 1500)) = none →
      extract_article_info llm content = ("未提及", ""))
    ∧ (∀ resp g, llm (String.mk (content.data.take 1500)) = some resp →
        reporterSearch (pyStrip resp).data = some g →
        (pyStrip (String.mk g)).length > 20 →
        (extract_article_info llm content).1 = "未提及"
        ∨ ∃ t, secondarySearch (pyStrip (String.mk g)).data = some t
            ∧ (extract_article_info llm content).1 = String.mk t
            ∧ 2 ≤ t.length ∧ t.length ≤ 5) := by
  constructor
  · intro h
    unfold extract_article_info
    rw [h]
  · intro resp g hllm hsearch hlong
    unfold extract_article_info
    rw [hllm]
    dsimp only
    unfold parseArticleReply
    dsimp only
    rw [hsearch]
    dsimp only
    rw [if_pos hlong]
    cases hs : secondarySearch (pyStrip (String.mk g)).data with
    | none =>
      left
      rfl
    | some t =>
      right
      have hb := secondarySearch_bounds _ _ hs
      exact ⟨t, rfl, rfl, hb.1, hb.2⟩

theorem extract_article_info_spec_witness :
    (extract_article_info
        (fun _ => some "記者：政治中心王小明大家好這是一段很長的署名超過二十個字元\n大綱：好")
        "c").1 = "未提及"
    ∨ ∃ t, secondarySearch
          (pyStrip (String.mk
            "政治中心王小明大家好這是一段很長的署名超過二十個字元".data)).data = some t
        ∧ (extract_article_info
            (fun _ => some "記者：政治中心王小明大家好這是一段很長的署名超過二十個字元\n大綱：好")
            "c").1 = String.mk t
        ∧ 2 ≤ t.length ∧ t.length ≤ 5 := by
  exact (extract_article_info_spec
    (fun _ => some "記者：政治中心王小明大家好這是一段很長的署名超過二十個字元\n大綱：好")
    "c").2
    "記者：政治中心王小明大家好這是一段很長的署名超過二十個字元\n大綱：好"
    "政治中心王小明大家好這是一段很長的署名超過二十個字元".data
    rfl (by rfl) (by decide)

/-- C6 counterexample: on this page the ChinaTimes structural pattern fails
(the class is `article-list2`, not `article-list`) and the extractor's very
next — and last — fallback already returns the position-heuristic window
around the first `/realtimenews/` anchor.  `ChinaTier` has no second
structural constructor because the source tries exactly two patterns, so
`ChinaTimesScraper.extract_news_block` is a two-tier fallback, refuting the
claim that every per-site block extractor falls back to a second, looser
structural pattern before the position heuristic. -/
theorem chinatimes_two_tier_counterexample :
    chinatimes_extract_news_blockT
        "<section class=\"article-list2\"><a href=\"/realtimenews/x\">t</a></section>"
      = (some
          "<section class=\"article-list2\"><a href=\"/realtimenews/x\">t</a></section>",
        ChinaTier.positional) := by
  rfl

/-- C6 (amended): `SetnScraper.extract_news_block` is the claimed three-tier
fallback — site-specific structural pattern, then a looser structural
pattern, then the position heuristic anchored on the first `NewsID=` link —
returning `None` only when all three fail; `ChinaTimesScraper.
extract_news_block` however is a two-tier fallback — its single structural
pattern, then directly the position heuristic anchored on the first
`/realtimenews/` link — returning `None` only when both fail. -/
theorem block_extractor_fallback (content : String) :
    (∀ g, searchGroup setnA1 (fun cs => (setnB1 cs).isSome) content.data
        = some g →
      setn_extract_news_blockT content
        = (some (String.mk g), SetnTier.structuralPrimary))
    ∧ (searchGroup setnA1 (fun cs => (setnB1 cs).isSome) content.data = none →
       ∀ g, searchGroup setnA2 (fun cs => (setnB2 cs).isSome) content.data
          = some g →
        setn_extract_news_blockT content
          = (some (String.mk g), SetnTier.structuralBackup))
    ∧ (searchGroup setnA1 (fun cs => (setnB1 cs).isSome) content.data = none →
       searchGroup setnA2 (fun cs => (setnB2 cs).isSome) content.data = none →
       ∀ i, anchorSearchIdx "NewsID=" content.data 0 = some i →
        setn_extract_news_blockT content
          = (some (positionWindow content i), SetnTier.positional))
    ∧ (setn_extract_news_block content = none ↔
        searchGroup setnA1 (fun cs => (setnB1 cs).isSome) content.data = none
        ∧ searchGroup setnA2 (fun cs => (setnB2 cs).isSome) content.data = none
        ∧ anchorSearchIdx "NewsID=" content.data 0 = none)
    ∧ (∀ g, searchGroup chinaA1 (fun cs => (chinaB1 cs).isSome) content.data
        = some g →
      chinatimes_extract_news_blockT content
        = (some (String.mk g), ChinaTier.structural))
    ∧ (searchGroup chinaA1 (fun cs => (chinaB1 cs).isSome) content.data
        = none →
       ∀ i, anchorSearchIdx "/realtimenews/" content.data 0 = some i →
        chinatimes_extract_news_blockT content
          = (some (positionWindow content i), ChinaTier.positional))
    ∧ (chinatimes_extract_news_block content = none ↔
        searchGroup chinaA1 (fun cs => (chinaB1 cs).isSome) content.data = none
        ∧ anchorSearchIdx "/realtimenews/" content.data 0 = none) := by
  refine ⟨?_, ?_, ?_, ?_, ?_, ?_, ?_⟩
  · intro g h
    unfold setn_extract_news_blockT
    rw [h]
  · intro h1 g h2
    unfold setn_extract_news_blockT
    rw [h1]
    dsimp only
    rw [h2]
  · intro h1 h2 i h3
    unfold setn_extract_news_blockT
    rw [h1]
    dsimp only
    rw [h2]
    dsimp only
    rw [h3]
  · unfold setn_extract_news_block setn_extract_news_blockT
    cases h1 : searchGroup setnA1 (fun cs => (setnB1 cs).isSome) content.data with
    | some g => simp
    | none =>
      dsimp only
      cases h2 : searchGroup setnA2 (fun cs => (setnB2 cs).isSome)
          content.data with
      | some g => simp
      | none =>
        dsimp only
        cases h3 : anchorSearchIdx "NewsID=" content.data 0 with
        | some i => simp
        | none => simp
  · intro g h
    unfold chinatimes_extract_news_blockT
    rw [h]
  · intro h1 i h2
    unfold chinatimes_extract_news_blockT
    rw [h1]
    dsimp only
    rw [h2]
  · unfold chinatimes_extract_news_block chinatimes_extract_news_blockT
    cases h1 : searchGroup chinaA1 (fun cs => (chinaB1 cs).isSome)
        content.data with
    | some g => simp
    | none =>
      dsimp only
      cases h2 : anchorSearchIdx "/realtimenews/" content.data 0 with
      | some i => simp
      | none => simp

theorem block_extractor_fallback_witness :
    setn_extract_news_block "" = none
    ∧ chinatimes_extract_news_block "" = none := by
  have h := block_extractor_fallback ""
  exact ⟨h.2.2.2.1.mpr ⟨rfl, rfl, rfl⟩, h.2.2.2.2.2.2.mpr ⟨rfl, rfl⟩⟩

theorem filter_existing_links_subset (dbOk : Bool) (stored : List String)
    (links : List (String × String)) (tl : String × String)
    (h : tl ∈ filter_existing_links dbOk stored links) :
    tl ∈ links ∧ (dbOk = true → tl.2 ∉ stored) := by
  unfold filter_existing_links at h
  by_cases hn : links = []
  · rw [if_pos hn] at h
    subst hn
    simp at h
  · rw [if_neg hn] at h
    cases dbOk with
    | false =>
      simp at h
    | true =>
      simp only [if_true] at h
      rw [List.mem_filter] at h
      obtain ⟨hmem, hpred⟩ := h
      refine ⟨hmem, fun _ hst => ?_⟩
      have hnotin := of_decide_eq_true hpred
      exact hnotin ((mem_existing_urls_iff stored links tl.2).mpr
        ⟨List.mem_map_of_mem Prod.snd hmem, hst⟩)

/-- C7: the event trace of `scrape_news` is the list-page fetches followed
by the detail fetches (deduplication and the existing-record filter complete
before the first detail fetch), and every detail-fetched URL belongs to the
intra-run-deduplicated candidate links and — when the storage lookup
succeeded — is not already persisted. -/
theorem scrape_news_dedup_before_fetch (cfg : ScraperConfig)
    (fetchList : String → String) (eb : String → Option String)
    (ch : String → CleanOut) (le : String → String → Option String)
    (lf : String → Option String) (parse : String → Option Json)
    (bfl : String → String) (dbOk : Bool) (stored : List String)
    (fetchArticle : String → String) (llmInfo : String → Option String)
    (num_pages max_articles : Nat) (dateStrFull : String) :
    (scrape_news cfg fetchList eb ch le lf parse bfl dbOk stored fetchArticle
        llmInfo num_pages max_articles dateStrFull).2
      = ((List.range num_pages).map
            (fun k => get_page_url cfg (k + 1))).map RunEvent.listFetch
        ++ ((filter_existing_links dbOk stored
              (dedupLinks (scrapeCandidates cfg fetchList eb ch le lf parse
                bfl num_pages dateStrFull) [])).take max_articles).map
            (fun tl => RunEvent.detailFetch tl.2)
    ∧ ∀ u, RunEvent.detailFetch u
        ∈ (scrape_news cfg fetchList eb ch le lf parse bfl dbOk stored
            fetchArticle llmInfo num_pages max_articles dateStrFull).2 →
      u ∈ (dedupLinks (scrapeCandidates cfg fetchList eb ch le lf parse bfl
            num_pages dateStrFull) []).map Prod.snd
      ∧ (dbOk = true → u ∉ stored) := by
  refine ⟨rfl, ?_⟩
  intro u hu
  unfold scrape_news at hu
  dsimp only at hu
  rcases List.mem_append.mp hu with hl | hd
  · rw [List.mem_map] at hl
    obtain ⟨v, _, hv⟩ := hl
    exact RunEvent.noConfusion hv
  · rw [List.mem_map] at hd
    obtain ⟨tl, htl, hv⟩ := hd
    injection hv with hv
    subst hv
    have htake : tl ∈ filter_existing_links dbOk stored
        (dedupLinks (scrapeCandidates cfg fetchList eb ch le lf parse bfl
          num_pages dateStrFull) []) := List.take_subset _ _ htl
    have hsub := filter_existing_links_subset dbOk stored _ tl htake
    exact ⟨List.mem_map_of_mem Prod.snd hsub.1, hsub.2⟩

theorem toBatches_small {α : Type} (l : List α) (h1 : l ≠ [])
    (h2 : l.length ≤ 100) : toBatches 100 l = [l] := by
  rw [toBatches]
  rw [dif_neg (by simp [h1])]
  rw [toBatches]
  rw [dif_pos (by right; simp only [List.length_drop]; omega)]
  simp [List.take_of_length_le h2]

theorem scrape_news_dedup_before_fetch_witness :
    "http://s/n/1" ∈ (dedupLinks (scrapeCandidates ⟨"b", none⟩ (fun _ => "x")
        (fun c => some c)
        (fun _ => CleanOut.plain (String.mk (List.replicate 100 'a')))
        (fun _ _ => some "[\x7b\"title\": \"T\", \"link\": \"/n/1\"\x7d]")
        (fun _ => none)
        (fun s => if s = "[\x7b\"title\": \"T\", \"link\": \"/n/1\"\x7d]"
          then some (Json.arr [Json.obj
            [("title", Json.str "T"), ("link", Json.str "/n/1")]])
          else none)
        (fun l => "http://s" ++ l) 1 "2026/01/05") []).map Prod.snd
    ∧ "http://s/n/1" ∉ ([] : List String) := by
  have h := scrape_news_dedup_before_fetch ⟨"b", none⟩ (fun _ => "x")
    (fun c => some c)
    (fun _ => CleanOut.plain (String.mk (List.replicate 100 'a')))
    (fun _ _ => some "[\x7b\"title\": \"T\", \"link\": \"/n/1\"\x7d]")
    (fun _ => none)
    (fun s => if s = "[\x7b\"title\": \"T\", \"link\": \"/n/1\"\x7d]"
      then some (Json.arr [Json.obj
        [("title", Json.str "T"), ("link", Json.str "/n/1")]])
      else none)
    (fun l => "http://s" ++ l) true [] (fun _ => "") (fun _ => none)
    1 5 "2026/01/05"
  have hD : dedupLinks (scrapeCandidates ⟨"b", none⟩ (fun _ => "x")
      (fun c => some c)
      (fun _ => CleanOut.plain (String.mk (List.replicate 100 'a')))
      (fun _ _ => some "[\x7b\"title\": \"T\", \"link\": \"/n/1\"\x7d]")
      (fun _ => none)
      (fun s => if s = "[\x7b\"title\": \"T\", \"link\": \"/n/1\"\x7d]"
        then some (Json.arr [Json.obj
          [("title", Json.str "T"), ("link", Json.str "/n/1")]])
        else none)
      (fun l => "http://s" ++ l) 1 "2026/01/05") []
      = [("T", "http://s/n/1")] := by rfl
  have hF : filter_existing_links true [] [("T", "http://s/n/1")]
      = [("T", "http://s/n/1")] := by
    simp only [filter_existing_links]
    rw [toBatches_small _ (by decide) (by decide)]
    decide
  have h2 := h.2 "http://s/n/1" (by
    rw [h.1, hD, hF]
    simp [get_page_url])
  exact ⟨h2.1, h2.2 rfl⟩

end NewsAnalyze
